import Mathlib

/-!
Verification development for `homeassistant-entity-renamer.py`, a CLI tool
that lists Home Assistant entities, previews a regex-based rename plan and
applies it over the hub's websocket control channel.

The Python source is shallowly embedded:
* pure helpers (`align_strings`, the plan construction, CSV row handling)
  become Lean functions over `String` and `List`;
* the effectful control flow of `process_entities`, `rename_entities` and
  `main` becomes functions producing explicit event traces (prints, CSV
  writes, the confirmation prompt, websocket frames);
* library calls are modelled at their documented semantics: `re.search`
  becomes an abstract matcher `String → Bool`, `re.sub` an abstract
  substitution function (instantiated with literal replacement for
  metacharacter-free patterns), Python's stable `sorted` becomes
  `List.mergeSort`, and the `csv` module transports records verbatim
  (a file is its list of records, each record a list of field strings).
Tables are rectangular at every call site (all rows have three cells), so
out-of-range cell access, which would raise in Python, is modelled by a
default `""`.
-/

namespace EntityRenamer

/-- A rename-plan row `(friendly_name, entity_id, new_entity_id)`, mirroring
the tuples built by `process_entities`. -/
abbrev Row := String × String × String

/-- Python truthiness of an optional string argument: `None` and `""` are
falsy, every other string is truthy. -/
def truthy : Option String → Bool
  | none => false
  | some s => !(s == "")

/-- The part of `s` before the first `.` (Python `s.split(".", 1)[0]`). -/
def beforeDot (s : String) : String :=
  String.mk (s.data.takeWhile (fun c => !(c == '.')))

/-- The part of `s` after the first `.` (Python `s.split(".", 1)[1]`). -/
def afterDot (s : String) : String :=
  String.mk (((s.data.dropWhile (fun c => !(c == '.')))).drop 1)

/-- Python `"." in s`. -/
def hasDot (s : String) : Bool := s.data.contains '.'

/-- The right-justifying format specifier applied to `s` at width `n`:
left-pad with spaces up to width `n`, unchanged when already wide enough. -/
def padLeft (n : Nat) (s : String) : String :=
  String.mk (List.replicate (n - s.length) ' ') ++ s

/-- The `align_string` closure inside `align_strings`: a cell without the
marker is returned unchanged, otherwise the prefix before the first `.` is
right-justified to width `m` and the remainder is reattached after the
marker. -/
def alignString (m : Nat) (s : String) : String :=
  if hasDot s then padLeft m (beforeDot s) ++ "." ++ afterDot s else s

/-- `max([len(s.split(".")[0]) for s in strings_to_align])` over the cells of
one column that contain the marker (the caller guards nonemptiness). -/
def colMaxLen (col : List String) : Nat :=
  ((col.filter hasDot).map (fun s => (beforeDot s).length)).foldl max 0

/-- Apply `f` to the entry at index `c` of a row, leaving the others alone:
the tuple comprehension `align_string(value) if i == column else value`. -/
def applyAt (f : String → String) : Nat → List String → List String
  | _, [] => []
  | 0, v :: vs => f v :: vs
  | n + 1, v :: vs => v :: applyAt f n vs

/-- Column `c` of a table (`[row[column] for row in table]`). -/
def colGet (table : List (List String)) (c : Nat) : List String :=
  table.map (fun row => row.getD c "")

/-- One iteration of the column loop of `align_strings`: if no cell of
column `c` contains the marker the table is unchanged (`continue`),
otherwise every cell of the column goes through `align_string`. -/
def alignColumn (table : List (List String)) (c : Nat) : List (List String) :=
  let col := colGet table c
  if (col.filter hasDot).isEmpty then table
  else table.map (applyAt (alignString (colMaxLen col)) c)

/-- `align_strings(table)`: iterate `alignColumn` over the column indices of
the first row; the empty table is returned unchanged. -/
def align_strings (table : List (List String)) : List (List String) :=
  match table with
  | [] => []
  | row0 :: rest => (List.range row0.length).foldl alignColumn (row0 :: rest)

/-- Comparator used to model `sorted(entity_data, key=lambda x: x[0])`:
compare the friendly names (Lean's `String` order is code-point
lexicographic, exactly Python's case-sensitive string order). -/
def nameLE (a b : String × String) : Bool := decide (a.1 ≤ b.1)

/-- `list_entities`, success branch: `entity_data` is the list of
`(friendly_name, entity_id)` pairs extracted from the JSON response; a
truthy `regex` argument is modelled by `some m` where `m entity_id` is
`re.search(regex, entity_id)`.  Filter, then sort stably by friendly name
(Python's `sorted` is stable; `List.mergeSort` is its verified model).
The non-200 branch (print the status and return `[]`) carries no data and
is not modelled. -/
def list_entities (entity_data : List (String × String))
    (regex : Option (String → Bool)) : List (String × String) :=
  let ed := match regex with
    | some m => entity_data.filter (fun (p : String × String) => m p.2)
    | none => entity_data
  ed.mergeSort nameLE

/-- Literal leftmost, non-overlapping replace-all over characters, with
fuel for structural recursion. -/
def goRepl (pat rep : List Char) : Nat → List Char → List Char
  | _, [] => []
  | 0, s => s
  | fuel + 1, c :: cs =>
    if pat.isPrefixOf (c :: cs) then
      rep ++ goRepl pat rep fuel (List.drop pat.length (c :: cs))
    else c :: goRepl pat rep fuel cs

/-- Model of Python `re.sub(pat, rep, s)` for a nonempty pattern free of
regex metacharacters and a replacement free of backreferences: replace every
leftmost non-overlapping literal occurrence. -/
def reSubLit (pat rep s : String) : String :=
  if pat == "" then s
  else String.mk (goRepl pat.data rep.data s.data.length s.data)

/-- The plan construction of `process_entities` when no input file is given
(lines 121-130): with a truthy replace pattern each entity id goes through
`re.sub` (abstracted as `reSub`), otherwise the new id is left empty. -/
def build_plan_from_pattern (entity_data : List (String × String))
    (search_regex replace_regex : Option String)
    (reSub : String → String → String → String) : List Row :=
  if truthy replace_regex then
    entity_data.map (fun p => (p.1, p.2, reSub (search_regex.getD "") (replace_regex.getD "") p.2))
  else
    entity_data.map (fun p => (p.1, p.2, ""))

/-- The header row written to and expected from CSV files. -/
def headerRow : List String := ["Friendly Name", "Current Entity ID", "New Entity ID"]

/-- A plan row as the record of raw field strings it is exported as. -/
def rowToList (r : Row) : List String := [r.1, r.2.1, r.2.2]

/-- The raw (unaligned) table handed to `write_to_csv`: header plus one
record per plan row. -/
def csvTable (rows : List Row) : List (List String) := headerRow :: rows.map rowToList

/-- `csv.DictReader` field access: position of the key in the header row,
then that field of the record (header names are distinct at every use). -/
def lookupField (header record : List String) (key : String) : Option String :=
  (header.indexOf? key).bind (fun i => record.get? i)

/-- One iteration of the input-file loop (lines 107-115): the current entity
id is required (`row[...]`, a missing column raises `KeyError`), friendly
name and new entity id default to `""` (`row.get(..., "")`). -/
def readRow (header : List String) (record : List String) : Option Row :=
  match lookupField header record "Current Entity ID" with
  | none => none
  | some eid =>
      some ((lookupField header record "Friendly Name").getD "", eid,
            (lookupField header record "New Entity ID").getD "")

/-- Reading the input CSV file, modelled on its list of records: the first
record is the header, each further record becomes one plan row; `none`
models the uncaught `KeyError` when the required column is missing. -/
def read_input (content : List (List String)) : Option (List Row) :=
  match content with
  | [] => some []
  | header :: records => records.mapM (readRow header)

/-- The parsed JSON result read back after an update request: the truthiness
of its success entry, and the message nested under its error entry when
present. -/
structure UpdateResult where
  success : Bool
  errorMessage : Option String
deriving Repr, DecidableEq

/-- The `entity_registry_update_msg` dictionary of `rename_entities`:
`new_entity_id` and `name` keys are added only when truthy. -/
structure UpdateMsg where
  id : Nat
  type : String
  entity_id : String
  new_entity_id : Option String
  name : Option String
deriving Repr, DecidableEq

/-- Build the update-request frame for plan row `r` with sequence id `i`
(lines 175-183). -/
def mkUpdateMsg (i : Nat) (r : Row) : UpdateMsg :=
  { id := i
    type := "config/entity_registry/update"
    entity_id := r.2.1
    new_entity_id := if r.2.2 == "" then none else some r.2.2
    name := if r.1 == "" then none else some r.1 }

/-- A single-quote character as a string, for composing log messages. -/
def sq : String := String.singleton (Char.ofNat 39)

/-- The per-row outcome line printed by `rename_entities` (lines 192-203). -/
def outcomeMessage (res : UpdateResult) (r : Row) : String :=
  if res.success then
    "Entity " ++ sq ++ r.2.1 ++ sq ++
      (if r.2.2 == "" then "" else " renamed to " ++ sq ++ r.2.2 ++ sq) ++
      (if r.1 == "" then "" else " with friendly name " ++ sq ++ r.1 ++ sq) ++
      " successfully!"
  else
    "Failed to update entity " ++ sq ++ r.2.1 ++ sq ++ ": " ++
      (res.errorMessage.getD "Unknown error")

/-- The hub side of the control channel: the unsolicited greeting frame, the
authentication result frame, and the parsed response to the update request
carrying sequence id `i`. -/
structure Hub where
  authRequest : String
  authResult : String
  results : Nat → UpdateResult

/-- One observable step on the websocket control channel. -/
inductive WsEvent where
  | connect
  | recvRaw (s : String)
  | sendAuth (token : String)
  | sendUpdate (m : UpdateMsg)
  | recvResult (r : UpdateResult)
  | report (s : String)
deriving Repr, DecidableEq

/-- The update loop of `rename_entities` (lines 172-203), with the running
1-based sequence id made explicit: send one frame per row, read exactly one
response, report the outcome, continue with the next row whatever the
response said. -/
def renameLoop (hub : Hub) : Nat → List Row → List WsEvent
  | _, [] => []
  | i, r :: rest =>
    let res := hub.results i
    WsEvent.sendUpdate (mkUpdateMsg i r) :: WsEvent.recvResult res ::
      WsEvent.report (outcomeMessage res r) :: renameLoop hub (i + 1) rest

/-- `rename_entities(rename_data)`: connect, read the greeting, send the
auth frame, read the auth result (unchecked), then run the update loop with
`enumerate(rename_data, start=1)`. -/
def rename_entities (hub : Hub) (token : String) (rows : List Row) : List WsEvent :=
  WsEvent.connect :: WsEvent.recvRaw hub.authRequest :: WsEvent.sendAuth token ::
    WsEvent.recvRaw hub.authResult :: renameLoop hub 1 rows

/-- The ambient interactive world of one run: the line read from standard
input at the confirmation prompt, the access token, and the hub. -/
structure Env where
  answer : String
  token : String
  hub : Hub

/-- One observable step of `process_entities`. -/
inductive PEvent where
  | printTable (t : List (List String))
  | message (s : String)
  | writeCsv (f : String) (t : List (List String))
  | prompt
  | ws (e : WsEvent)
  | exception (s : String)
deriving Repr, DecidableEq

/-- Whether a process event is traffic on the control channel. -/
def isWsEvent : PEvent → Bool
  | .ws _ => true
  | _ => false

/-- The update-request frames sent on the channel, in order. -/
def sentUpdates (tr : List WsEvent) : List UpdateMsg :=
  tr.filterMap (fun e => match e with | .sendUpdate m => some m | _ => none)

/-- The request/response subsequence of a channel trace: update-request
sends and update-response reads only. -/
def reqResOf (tr : List WsEvent) : List WsEvent :=
  tr.filter (fun e => match e with | .sendUpdate _ => true | .recvResult _ => true | _ => false)

/-- Printing the preview table (line 133-136): header row prepended to the
aligned plan rows.  The `tabulate` text rendering is cosmetic and the event
carries the table instead. -/
def tableEvent (rows : List Row) : PEvent :=
  PEvent.printTable (headerRow :: align_strings (rows.map rowToList))

/-- The CSV export step (lines 139-141 and `write_to_csv`): write the raw
unaligned header-plus-rows table to the file (mode `"w"`, overwriting), then
print the confirmation line. -/
def exportEvents (output_file : Option String) (rows : List Row) : List PEvent :=
  match output_file with
  | none => []
  | some f => [PEvent.writeCsv f (csvTable rows),
               PEvent.message ("(Table written to " ++ f ++ ")")]

/-- `answer.lower() in ["y", "yes"]` (Python `str.lower`, modelled for the
ASCII range). -/
def isAffirmative (s : String) : Bool :=
  let low := String.mk (s.data.map Char.toLower)
  low == "y" || low == "yes"

/-- The confirmation prompt and what follows it (lines 147-152): an
affirmative answer runs the applier, anything else prints the cancellation
line and returns. -/
def confirmAndRename (env : Env) (rows : List Row) : List PEvent :=
  PEvent.prompt ::
    (if isAffirmative env.answer then (rename_entities env.hub env.token rows).map PEvent.ws
     else [PEvent.message "Renaming process aborted."])

/-- The confirmation gate (lines 143-152): with neither a truthy replace
pattern nor an input file, return before prompting. -/
def gateEvents (env : Env) (rows : List Row) (hasReplace usedInput : Bool) : List PEvent :=
  if !hasReplace && !usedInput then [] else confirmAndRename env rows

/-- The tail of `process_entities` shared by both plan sources: print the
aligned table, export if requested, then the confirmation gate. -/
def mainFlow (env : Env) (rows : List Row) (output_file : Option String)
    (hasReplace usedInput : Bool) : List PEvent :=
  tableEvent rows :: exportEvents output_file rows ++ gateEvents env rows hasReplace usedInput

/-- `process_entities`: an input file (its name and list of records) takes
precedence and its rows are used verbatim, an empty file aborts with a
message and a missing required column raises; otherwise the plan is built
from the patterns.  `reSub` abstracts `re.sub`. -/
def process_entities (env : Env) (entity_data : List (String × String))
    (search_regex replace_regex output_file : Option String)
    (input_file : Option (String × List (List String)))
    (reSub : String → String → String → String) : List PEvent :=
  match input_file with
  | some (_, content) =>
    (match read_input content with
     | none => [PEvent.exception "KeyError"]
     | some rows =>
        if rows.isEmpty then [PEvent.message "No data found in the input file."]
        else mainFlow env rows output_file (truthy replace_regex) true)
  | none =>
    mainFlow env (build_plan_from_pattern entity_data search_regex replace_regex reSub)
      output_file (truthy replace_regex) false

/-- The parsed CLI arguments (all four flags are optional strings). -/
structure Args where
  input_file : Option String
  search_regex : Option String
  replace_regex : Option String
  output_file : Option String

/-- The external world of one `main` run: the entity pairs a successful
listing would return, `re.search`/`re.sub` as abstract functions, the
records of the input file, and the interactive environment. -/
structure World where
  states : List (String × String)
  matcher : String → String → Bool
  reSub : String → String → String → String
  fileContent : List (List String)
  env : Env

/-- One observable step of `main`. -/
inductive MEvent where
  | output (s : String)
  | helpShown
  | restCall
  | proc (e : PEvent)

/-- Whether a `main` event comes from `process_entities` (and hence could be
a rename action). -/
def isProcEvent : MEvent → Bool
  | .proc _ => true
  | _ => false

/-- `main()` after argument parsing (lines 235-255): flag validation, then
either the search path (REST listing, then `process_entities`), the
input-file path, or the help text. -/
def main (w : World) (args : Args) : List MEvent :=
  if truthy args.search_regex && truthy args.input_file then
    [MEvent.output "Error: --search and --input-file cannot be used together."]
  else if truthy args.replace_regex && !truthy args.search_regex then
    [MEvent.output "Error: --replace requires --search."]
  else if truthy args.search_regex then
    MEvent.restCall ::
      (let entity_data := list_entities w.states (some (w.matcher (args.search_regex.getD "")))
       if entity_data.isEmpty then
         [MEvent.output "No entities found matching the search regex."]
       else
         (process_entities w.env entity_data args.search_regex args.replace_regex
            args.output_file none w.reSub).map MEvent.proc)
  else if truthy args.input_file then
    (process_entities w.env [] none none args.output_file
        (some (args.input_file.getD "", w.fileContent)) w.reSub).map MEvent.proc
  else [MEvent.helpShown]

/-! Concrete sample objects used to instantiate the theorems below. -/

/-- A successful update response. -/
def resOK : UpdateResult := { success := true, errorMessage := none }

/-- A hub that greets, accepts authentication and accepts every update. -/
def hub0 : Hub := { authRequest := "greeting", authResult := "auth_ok", results := fun _ => resOK }

/-- An interactive environment whose operator declines the confirmation. -/
def env0 : Env := { answer := "n", token := "tok", hub := hub0 }

/-- An identity substitution function, usable where `re.sub` is irrelevant. -/
def idSub : String → String → String → String := fun _ _ s => s

/-- A sample world for `main`. -/
def w0 : World :=
  { states := [], matcher := fun _ _ => true, reSub := idSub, fileContent := [], env := env0 }

/-- Arguments carrying both `--search` and `--input-file`. -/
def args0 : Args :=
  { input_file := some "f.csv", search_regex := some "light", replace_regex := none,
    output_file := none }

/-- Arguments carrying `--replace` without `--search`. -/
def args1 : Args :=
  { input_file := none, search_regex := none, replace_regex := some "new",
    output_file := none }

/-- Arguments carrying no flag at all. -/
def args2 : Args :=
  { input_file := none, search_regex := none, replace_regex := none, output_file := none }

/-- A one-row plan whose friendly name and new id are both empty. -/
def rows0 : List Row := [("", "sensor.x", "")]

/-! Helper lemmas. -/

/-- Reading back an exported record under the exported header recovers the
original plan row. -/
theorem readRow_rowToList (r : Row) : readRow headerRow (rowToList r) = some r := by
  obtain ⟨a, b, c⟩ := r
  rfl

/-- With a falsy replace pattern the plan maps every entity to an empty new
id. -/
theorem build_plan_no_replace (entity_data : List (String × String))
    (search_regex replace_regex : Option String)
    (reSub : String → String → String → String) (hr : truthy replace_regex = false) :
    build_plan_from_pattern entity_data search_regex replace_regex reSub
      = entity_data.map (fun p => (p.1, p.2, "")) := by
  simp [build_plan_from_pattern, hr]

/-! Claim theorems. -/

/-- C7: for every rename plan, exporting it as the raw header-plus-rows CSV
table and re-reading that table through the input-file path reproduces the
identical list (hence set) of (displayName, currentId, newId) triples. -/
theorem c7_csv_round_trip (rows : List Row) : read_input (csvTable rows) = some rows := by
  show (rows.map rowToList).mapM (readRow headerRow) = some rows
  induction rows with
  | nil => rfl
  | cons r rs ih =>
    rw [List.map_cons, List.mapM_cons, readRow_rowToList, ih]
    rfl

/-- Witness for C7 at a concrete input. -/
theorem c7_witness : read_input (csvTable rows0) = some rows0 :=
  c7_csv_round_trip rows0

/-- C3: with a truthy replace pattern every listed record is planned with
`newId` the regex substitution (search → replace) applied to `currentId`;
with no replace pattern `newId` is left empty; and on the concrete record
`light.kitchen_old` with literal patterns `kitchen_old` → `kitchen_new` the
planned new id is `light.kitchen_new`. -/
theorem c3_planner (entity_data : List (String × String)) (sr rr : String)
    (reSub : String → String → String → String) (hr : rr ≠ "") :
    build_plan_from_pattern entity_data (some sr) (some rr) reSub
        = entity_data.map (fun p => (p.1, p.2, reSub sr rr p.2))
    ∧ (∀ sr' : Option String,
        build_plan_from_pattern entity_data sr' none reSub
          = entity_data.map (fun p => (p.1, p.2, "")))
    ∧ build_plan_from_pattern [("", "light.kitchen_old")]
        (some "kitchen_old") (some "kitchen_new") reSubLit
        = [("", "light.kitchen_old", "light.kitchen_new")] := by
  refine ⟨?_, ?_, by decide⟩
  · simp [build_plan_from_pattern, truthy, hr]
  · intro sr'
    exact build_plan_no_replace entity_data sr' none reSub rfl

/-- Witness for C3 at a concrete input. -/
theorem c3_witness :
    ("kitchen_new" ≠ "")
    ∧ build_plan_from_pattern [("", "light.kitchen_old")]
        (some "kitchen_old") (some "kitchen_new") reSubLit
        = [("", "light.kitchen_old", "light.kitchen_new")] :=
  ⟨by decide,
   (c3_planner [("", "light.kitchen_old")] "kitchen_old" "kitchen_new" reSubLit
      (by decide)).2.2⟩

/-- C2: with a search pattern but a falsy replace pattern and no input file,
`process_entities` produces exactly the preview table and the optional
export: the confirmation prompt is skipped and no control-channel event (in
particular no connection and no update frame) occurs. -/
theorem c2_preview_only (env : Env) (entity_data : List (String × String))
    (sr rr out : Option String) (reSub : String → String → String → String)
    (hr : truthy rr = false) :
    process_entities env entity_data sr rr out none reSub
        = tableEvent (entity_data.map (fun p => (p.1, p.2, "")))
            :: exportEvents out (entity_data.map (fun p => (p.1, p.2, "")))
    ∧ PEvent.prompt ∉ process_entities env entity_data sr rr out none reSub
    ∧ ∀ e ∈ process_entities env entity_data sr rr out none reSub, isWsEvent e = false := by
  have htr : process_entities env entity_data sr rr out none reSub
      = tableEvent (entity_data.map (fun p => (p.1, p.2, "")))
          :: exportEvents out (entity_data.map (fun p => (p.1, p.2, ""))) := by
    simp [process_entities, mainFlow, gateEvents,
      build_plan_no_replace entity_data sr rr reSub hr, hr]
  refine ⟨htr, ?_, ?_⟩
  · rw [htr]
    cases out <;> simp [exportEvents, tableEvent]
  · intro e he
    rw [htr] at he
    cases out <;> simp [exportEvents, tableEvent] at he
    · subst he; rfl
    · rcases he with rfl | rfl | rfl <;> rfl

/-- Witness for C2 at a concrete input. -/
theorem c2_witness :
    truthy none = false
    ∧ process_entities env0 [("fn", "light.a")] (some "a") none none none idSub
        = tableEvent ([("fn", "light.a")].map (fun p => (p.1, p.2, "")))
            :: exportEvents none ([("fn", "light.a")].map (fun p => (p.1, p.2, ""))) :=
  ⟨by decide,
   (c2_preview_only env0 [("fn", "light.a")] (some "a") none none idSub (by decide)).1⟩

/-- When the gate is open (truthy replace pattern or input file) and the
operator declines, the flow after the table is exactly the prompt followed
by the cancellation message. -/
theorem gate_open_decline (env : Env) (rows : List Row) (out : Option String)
    (hR hU : Bool) (hg : (!hR && !hU) = false) (hans : isAffirmative env.answer = false) :
    mainFlow env rows out hR hU
      = tableEvent rows :: exportEvents out rows
          ++ [PEvent.prompt, PEvent.message "Renaming process aborted."] := by
  simp [mainFlow, gateEvents, hg, confirmAndRename, hans]

/-- Every event the confirmation gate can emit is the prompt, the
cancellation message, or control-channel traffic. -/
theorem gate_tail_chars (env : Env) (rows : List Row) (hR hU : Bool) :
    ∀ e ∈ gateEvents env rows hR hU,
      e = PEvent.prompt ∨ e = PEvent.message "Renaming process aborted."
        ∨ isWsEvent e = true := by
  intro e he
  unfold gateEvents at he
  split at he
  · simp at he
  · unfold confirmAndRename at he
    rcases List.mem_cons.mp he with rfl | h
    · exact Or.inl rfl
    · by_cases ha : isAffirmative env.answer = true
      · rw [if_pos ha] at h
        obtain ⟨v, _, rfl⟩ := List.mem_map.mp h
        exact Or.inr (Or.inr rfl)
      · rw [if_neg ha] at h
        simp at h
        exact Or.inr (Or.inl h)

/-- A nonempty list is not `isEmpty`. -/
theorem isEmpty_false_of_ne_nil {rows : List Row} (h : rows ≠ []) : rows.isEmpty = false := by
  cases rows with
  | nil => exact absurd rfl h
  | cons r rs => rfl

/-- C1: when the plan requires confirmation (a truthy replace pattern
without an input file, or a successfully read nonempty input file), the
prompt is shown; with any answer that does not lowercase to `y`/`yes` the
cancellation message is printed and no control-channel event occurs: no
connection, no frame, no rename. -/
theorem c1_confirmation_decline (env : Env) (entity_data : List (String × String))
    (sr rr out : Option String) (inp : Option (String × List (List String)))
    (reSub : String → String → String → String)
    (hconf : (inp = none ∧ truthy rr = true)
      ∨ ∃ f c rows, inp = some (f, c) ∧ read_input c = some rows ∧ rows ≠ [])
    (hans : isAffirmative env.answer = false) :
    PEvent.prompt ∈ process_entities env entity_data sr rr out inp reSub
    ∧ PEvent.message "Renaming process aborted."
        ∈ process_entities env entity_data sr rr out inp reSub
    ∧ ∀ e ∈ process_entities env entity_data sr rr out inp reSub, isWsEvent e = false := by
  have key : ∀ (rows : List Row) (hR hU : Bool), (!hR && !hU) = false →
      PEvent.prompt ∈ mainFlow env rows out hR hU
      ∧ PEvent.message "Renaming process aborted." ∈ mainFlow env rows out hR hU
      ∧ ∀ e ∈ mainFlow env rows out hR hU, isWsEvent e = false := by
    intro rows hR hU hg
    rw [gate_open_decline env rows out hR hU hg hans]
    refine ⟨?_, ?_, ?_⟩
    · cases out <;> simp [exportEvents]
    · cases out <;> simp [exportEvents]
    · intro e he
      cases out with
      | none =>
        simp [exportEvents, tableEvent] at he
        rcases he with rfl | rfl | rfl <;> rfl
      | some g =>
        simp [exportEvents, tableEvent] at he
        rcases he with rfl | rfl | rfl | rfl | rfl <;> rfl
  rcases hconf with ⟨rfl, hrr⟩ | ⟨f, c, rows, rfl, hread, hne⟩
  · have h := key (build_plan_from_pattern entity_data sr rr reSub) (truthy rr) false
      (by rw [hrr]; rfl)
    simpa [process_entities] using h
  · have h := key rows (truthy rr) true (by simp)
    have heq : process_entities env entity_data sr rr out (some (f, c)) reSub
        = mainFlow env rows out (truthy rr) true := by
      simp [process_entities, hread, isEmpty_false_of_ne_nil hne]
    rw [heq]
    exact h

/-- Witness for C1 at a concrete input. -/
theorem c1_witness :
    ((none : Option (String × List (List String))) = none ∧ truthy (some "new") = true)
    ∧ isAffirmative env0.answer = false
    ∧ PEvent.prompt ∈ process_entities env0 [("fn", "light.a")]
        (some "a") (some "new") none none idSub :=
  ⟨⟨rfl, by decide⟩, by decide,
   (c1_confirmation_decline env0 [("fn", "light.a")] (some "a") (some "new") none none idSub
      (Or.inl ⟨rfl, by decide⟩) (by decide)).1⟩

/-- C10: whenever an output file is supplied and the plan is nonempty, the
trace of `process_entities` starts with the preview print, then the CSV
write with its confirmation line, and only then the gate events — so the
file write (mode `"w"`, overwriting) precedes any prompt and happens even
in preview-only mode and when the operator declines. -/
theorem c10_export_before_prompt (env : Env) (entity_data : List (String × String))
    (sr rr : Option String) (f : String) (inp : Option (String × List (List String)))
    (reSub : String → String → String → String)
    (hplan : (inp = none ∧ entity_data ≠ [])
      ∨ ∃ g c rows, inp = some (g, c) ∧ read_input c = some rows ∧ rows ≠ []) :
    ∃ rows tail,
      process_entities env entity_data sr rr (some f) inp reSub
        = PEvent.printTable (headerRow :: align_strings (rows.map rowToList))
            :: PEvent.writeCsv f (csvTable rows)
            :: PEvent.message ("(Table written to " ++ f ++ ")")
            :: tail
      ∧ rows ≠ []
      ∧ ∀ e ∈ tail, e = PEvent.prompt ∨ e = PEvent.message "Renaming process aborted."
          ∨ isWsEvent e = true := by
  rcases hplan with ⟨rfl, hne⟩ | ⟨g, c, rows, rfl, hread, hne⟩
  · refine ⟨build_plan_from_pattern entity_data sr rr reSub,
      gateEvents env (build_plan_from_pattern entity_data sr rr reSub) (truthy rr) false,
      ?_, ?_, gate_tail_chars env _ (truthy rr) false⟩
    · simp [process_entities, mainFlow, exportEvents, tableEvent]
    · intro hcon
      apply hne
      have hlen : (build_plan_from_pattern entity_data sr rr reSub).length
          = entity_data.length := by
        unfold build_plan_from_pattern
        split <;> simp
      rw [hcon] at hlen
      exact List.length_eq_zero.mp hlen.symm
  · refine ⟨rows, gateEvents env rows (truthy rr) true, ?_, hne,
      gate_tail_chars env rows (truthy rr) true⟩
    simp [process_entities, hread, isEmpty_false_of_ne_nil hne, mainFlow, exportEvents,
      tableEvent]

/-- Witness for C10 at a concrete input. -/
theorem c10_witness :
    (((none : Option (String × List (List String))) = none
        ∧ ([("fn", "light.a")] : List (String × String)) ≠ [])
      ∨ ∃ g c rows, (none : Option (String × List (List String))) = some (g, c)
          ∧ read_input c = some rows ∧ rows ≠ [])
    ∧ ∃ rows tail,
        process_entities env0 [("fn", "light.a")] (some "a") none (some "o.csv") none idSub
          = PEvent.printTable (headerRow :: align_strings (rows.map rowToList))
              :: PEvent.writeCsv "o.csv" (csvTable rows)
              :: PEvent.message ("(Table written to " ++ "o.csv" ++ ")")
              :: tail
        ∧ rows ≠ []
        ∧ ∀ e ∈ tail, e = PEvent.prompt ∨ e = PEvent.message "Renaming process aborted."
            ∨ isWsEvent e = true :=
  ⟨Or.inl ⟨rfl, by decide⟩,
   c10_export_before_prompt env0 [("fn", "light.a")] (some "a") none "o.csv" none idSub
     (Or.inl ⟨rfl, by decide⟩)⟩

/-- C9: supplying both `--search` and `--input-file` (with nonempty values)
reports the mutual-exclusion error and nothing else; `--replace` without a
truthy `--search` reports its error and nothing else; with none of
`--search`, `--input-file`, `--replace` the help text is shown; in all
three cases no REST call happens and no `process_entities` step (hence no
rename) occurs. -/
theorem c9_cli_validation (w : World) (args : Args) :
    (truthy args.search_regex = true → truthy args.input_file = true →
      main w args = [MEvent.output "Error: --search and --input-file cannot be used together."]
      ∧ MEvent.restCall ∉ main w args
      ∧ ∀ e ∈ main w args, isProcEvent e = false)
    ∧ (truthy args.replace_regex = true → truthy args.search_regex = false →
      main w args = [MEvent.output "Error: --replace requires --search."]
      ∧ MEvent.restCall ∉ main w args
      ∧ ∀ e ∈ main w args, isProcEvent e = false)
    ∧ (truthy args.search_regex = false → truthy args.input_file = false →
        truthy args.replace_regex = false →
      main w args = [MEvent.helpShown]
      ∧ MEvent.restCall ∉ main w args
      ∧ ∀ e ∈ main w args, isProcEvent e = false) := by
  refine ⟨fun hs hi => ?_, fun hr hs => ?_, fun hs hi hr => ?_⟩
  · have hm : main w args
        = [MEvent.output "Error: --search and --input-file cannot be used together."] := by
      simp [main, hs, hi]
    refine ⟨hm, by rw [hm]; simp, ?_⟩
    intro e he
    rw [hm] at he
    simp at he
    subst he
    rfl
  · have hm : main w args = [MEvent.output "Error: --replace requires --search."] := by
      simp [main, hr, hs]
    refine ⟨hm, by rw [hm]; simp, ?_⟩
    intro e he
    rw [hm] at he
    simp at he
    subst he
    rfl
  · have hm : main w args = [MEvent.helpShown] := by
      simp [main, hs, hi, hr]
    refine ⟨hm, by rw [hm]; simp, ?_⟩
    intro e he
    rw [hm] at he
    simp at he
    subst he
    rfl

/-- Witness for C9 at a concrete input. -/
theorem c9_witness :
    truthy args0.search_regex = true ∧ truthy args0.input_file = true
    ∧ main w0 args0
        = [MEvent.output "Error: --search and --input-file cannot be used together."] :=
  ⟨by decide, by decide, ((c9_cli_validation w0 args0).1 (by decide) (by decide)).1⟩

/-- One column pass preserves the number of rows. -/
theorem length_alignColumn (t : List (List String)) (c : Nat) :
    (alignColumn t c).length = t.length := by
  unfold alignColumn
  dsimp only
  split
  · rfl
  · rw [List.length_map]

/-- Iterated column passes preserve the number of rows. -/
theorem length_foldl_alignColumn (cs : List Nat) :
    ∀ t : List (List String), (cs.foldl alignColumn t).length = t.length := by
  induction cs with
  | nil => intro t; rfl
  | cons c cs ih => intro t; rw [List.foldl_cons, ih, length_alignColumn]

/-- Alignment preserves the number of rows of the table. -/
theorem length_align_strings (t : List (List String)) :
    (align_strings t).length = t.length := by
  cases t with
  | nil => rfl
  | cons r rs => exact length_foldl_alignColumn (List.range r.length) (r :: rs)

/-- Closed form of the update frames sent by the loop: one frame per row,
in order, with consecutive sequence ids starting at the loop's start
index. -/
theorem sentUpdates_renameLoop (hub : Hub) (rows : List Row) :
    ∀ i, sentUpdates (renameLoop hub i rows)
      = List.zipWith mkUpdateMsg (List.range' i rows.length) rows := by
  induction rows with
  | nil => intro i; rfl
  | cons r rs ih =>
    intro i
    simp only [renameLoop, sentUpdates, List.filterMap_cons, List.length_cons,
      List.range'_succ, List.zipWith_cons_cons]
    exact congrArg _ (ih (i + 1))

/-- Closed form of the request/response subsequence of the loop: a strictly
alternating send/receive pair per row, in row order. -/
theorem reqRes_renameLoop (hub : Hub) (rows : List Row) :
    ∀ i, reqResOf (renameLoop hub i rows)
      = (List.zipWith
          (fun j r => [WsEvent.sendUpdate (mkUpdateMsg j r),
                       WsEvent.recvResult (hub.results j)])
          (List.range' i rows.length) rows).flatten := by
  induction rows with
  | nil => intro i; rfl
  | cons r rs ih =>
    intro i
    simp only [renameLoop, reqResOf, List.filter_cons, List.length_cons,
      List.range'_succ, List.zipWith_cons_cons, List.flatten_cons]
    simp only [reqResOf] at ih
    rw [ih (i + 1)]
    rfl

/-- The channel preamble (connect, greeting, auth, auth result) contributes
no update frame, so the frames of a whole run are those of the loop. -/
theorem sentUpdates_rename_entities (hub : Hub) (token : String) (rows : List Row) :
    sentUpdates (rename_entities hub token rows)
      = List.zipWith mkUpdateMsg (List.range' 1 rows.length) rows := by
  show sentUpdates (renameLoop hub 1 rows) = _
  exact sentUpdates_renameLoop hub rows 1

/-- The request/response subsequence of a whole run is that of the loop. -/
theorem reqRes_rename_entities (hub : Hub) (token : String) (rows : List Row) :
    reqResOf (rename_entities hub token rows)
      = (List.zipWith
          (fun j r => [WsEvent.sendUpdate (mkUpdateMsg j r),
                       WsEvent.recvResult (hub.results j)])
          (List.range' 1 rows.length) rows).flatten := by
  show reqResOf (renameLoop hub 1 rows) = _
  exact reqRes_renameLoop hub rows 1

/-- Entry `k` of the zipWith closed form is the frame for row `k` with
sequence id `i + k`. -/
theorem get?_zipWith_mkUpdateMsg (rows : List Row) :
    ∀ (k i : Nat) (r : Row), rows.get? k = some r →
      (List.zipWith mkUpdateMsg (List.range' i rows.length) rows).get? k
        = some (mkUpdateMsg (i + k) r) := by
  induction rows with
  | nil => intro k i r h; simp at h
  | cons x xs ih =>
    intro k i r h
    cases k with
    | zero =>
      simp at h
      subst h
      simp [List.range'_succ]
    | succ k =>
      simp only [List.get?_cons_succ] at h
      simp only [List.length_cons, List.range'_succ, List.zipWith_cons_cons,
        List.get?_cons_succ]
      rw [ih k (i + 1) r h]
      congr 2
      omega

/-- C4: in one applier run the update frames sent are exactly one per plan
row in plan order with 1-based consecutive sequence ids; frame `k` carries
the fixed operation type, the row's current id, and the new-id / name
fields exactly when the row's newId / displayName are nonempty; the
request/response subsequence strictly alternates one response read per
frame sent; and the number of frames equals the number of rows for every
hub response function, so a per-row rejection stops nothing. -/
theorem c4_applier_protocol (hub : Hub) (token : String) (rows : List Row) :
    sentUpdates (rename_entities hub token rows)
      = List.zipWith mkUpdateMsg (List.range' 1 rows.length) rows
    ∧ (sentUpdates (rename_entities hub token rows)).length = rows.length
    ∧ reqResOf (rename_entities hub token rows)
      = (List.zipWith
          (fun j r => [WsEvent.sendUpdate (mkUpdateMsg j r),
                       WsEvent.recvResult (hub.results j)])
          (List.range' 1 rows.length) rows).flatten
    ∧ ∀ (i : Nat) (r : Row),
        (mkUpdateMsg i r).id = i
        ∧ (mkUpdateMsg i r).type = "config/entity_registry/update"
        ∧ (mkUpdateMsg i r).entity_id = r.2.1
        ∧ ((mkUpdateMsg i r).new_entity_id.isSome ↔ r.2.2 ≠ "")
        ∧ ((mkUpdateMsg i r).name.isSome ↔ r.1 ≠ "")
        ∧ ((mkUpdateMsg i r).new_entity_id = if r.2.2 == "" then none else some r.2.2)
        ∧ ((mkUpdateMsg i r).name = if r.1 == "" then none else some r.1) := by
  refine ⟨sentUpdates_rename_entities hub token rows, ?_,
    reqRes_rename_entities hub token rows, ?_⟩
  · rw [sentUpdates_rename_entities]
    simp
  · intro i r
    refine ⟨rfl, rfl, rfl, ?_, ?_, rfl, rfl⟩
    · by_cases h : r.2.2 = "" <;> simp [mkUpdateMsg, h]
    · by_cases h : r.1 = "" <;> simp [mkUpdateMsg, h]

/-- Witness for C4 at a concrete input. -/
theorem c4_witness :
    sentUpdates (rename_entities hub0 "tok" rows0)
      = List.zipWith mkUpdateMsg (List.range' 1 rows0.length) rows0 :=
  (c4_applier_protocol hub0 "tok" rows0).1

/-- C5: a plan row whose friendly name and new id are both empty still
appears at its position in the displayed (aligned) preview table, and the
frame the applier sends for it carries neither a new-id nor a name field,
so it requests no change. -/
theorem c5_noop_rows (hub : Hub) (token : String) (rows : List Row) (k : Nat) (eid : String)
    (h : rows.get? k = some ("", eid, "")) :
    (∃ r, (align_strings (rows.map rowToList)).get? k = some r)
    ∧ (sentUpdates (rename_entities hub token rows)).get? k
        = some (mkUpdateMsg (k + 1) ("", eid, ""))
    ∧ (mkUpdateMsg (k + 1) ("", eid, "")).new_entity_id = none
    ∧ (mkUpdateMsg (k + 1) ("", eid, "")).name = none := by
  have hk : k < rows.length := by
    rcases List.get?_eq_some.mp h with ⟨hlt, _⟩
    exact hlt
  refine ⟨?_, ?_, rfl, rfl⟩
  · have hlen : k < (align_strings (rows.map rowToList)).length := by
      rw [length_align_strings, List.length_map]
      exact hk
    refine ⟨(align_strings (rows.map rowToList)).get ⟨k, hlen⟩, ?_⟩
    rw [List.get?_eq_getElem?]
    simp [List.getElem?_eq_getElem hlen]
  · rw [sentUpdates_rename_entities]
    have := get?_zipWith_mkUpdateMsg rows k 1 ("", eid, "") h
    rwa [Nat.add_comm 1 k] at this

/-- Witness for C5 at a concrete input. -/
theorem c5_witness :
    rows0.get? 0 = some ("", "sensor.x", "")
    ∧ (sentUpdates (rename_entities hub0 "tok" rows0)).get? 0
        = some (mkUpdateMsg (0 + 1) ("", "sensor.x", "")) :=
  ⟨by decide, (c5_noop_rows hub0 "tok" rows0 0 "sensor.x" (by decide)).2.1⟩

/-- The comparator on friendly names is transitive. -/
theorem nameLE_trans : ∀ a b c : String × String,
    nameLE a b = true → nameLE b c = true → nameLE a c = true := by
  intro a b c hab hbc
  simp only [nameLE, decide_eq_true_eq] at hab hbc ⊢
  exact le_trans hab hbc

/-- The comparator on friendly names is total. -/
theorem nameLE_total : ∀ a b : String × String, (nameLE a b || nameLE b a) = true := by
  intro a b
  simp only [nameLE, Bool.or_eq_true, decide_eq_true_eq]
  exact le_total a.1 b.1

/-- C6: with a pattern supplied, `list_entities` returns exactly the pairs
whose identifier matches (a permutation of the filtered input, which keeps
the pre-sort input order), sorted ascending by display name under the
case-sensitive lexicographic `String` order, and stably: for every display
name, the sublist of entries carrying it equals the corresponding sublist
of the filtered input, so equal names keep their relative input order. -/
theorem c6_lister (entity_data : List (String × String)) (m : String → Bool) :
    List.Perm (list_entities entity_data (some m))
      (entity_data.filter (fun p => m p.2))
    ∧ (list_entities entity_data (some m)).Pairwise (fun a b => a.1 ≤ b.1)
    ∧ ∀ name : String,
        (list_entities entity_data (some m)).filter (fun q => q.1 == name)
          = (entity_data.filter (fun p => m p.2)).filter (fun q => q.1 == name) := by
  have hdef : list_entities entity_data (some m)
      = (entity_data.filter (fun p => m p.2)).mergeSort nameLE := rfl
  refine ⟨?_, ?_, ?_⟩
  · rw [hdef]
    exact List.mergeSort_perm _ nameLE
  · rw [hdef]
    have hs := List.sorted_mergeSort nameLE_trans nameLE_total
      (entity_data.filter (fun p => m p.2))
    refine hs.imp ?_
    intro a b hab
    simpa only [nameLE, decide_eq_true_eq] using hab
  · intro name
    rw [hdef]
    set l := entity_data.filter (fun p => m p.2) with hl
    set p : String × String → Bool := fun q => q.1 == name with hp
    have hpair : (l.filter p).Pairwise (fun a b => nameLE a b = true) := by
      apply List.pairwise_of_forall_mem_list
      intro a ha b hb
      have ha2 : a.1 = name := by simpa [hp] using List.of_mem_filter ha
      have hb2 : b.1 = name := by simpa [hp] using List.of_mem_filter hb
      simp [nameLE, ha2, hb2]
    have hsub : List.Sublist (l.filter p) (l.mergeSort nameLE) :=
      List.sublist_mergeSort nameLE_trans nameLE_total hpair (List.filter_sublist l)
    have hsub2 : List.Sublist ((l.filter p).filter p) ((l.mergeSort nameLE).filter p) :=
      hsub.filter p
    have hself : (l.filter p).filter p = l.filter p := by
      rw [List.filter_eq_self]
      intro a ha
      exact List.of_mem_filter ha
    rw [hself] at hsub2
    have hperm : List.Perm ((l.mergeSort nameLE).filter p) (l.filter p) :=
      (List.mergeSort_perm l nameLE).filter p
    exact (hsub2.eq_of_length hperm.length_eq.symm).symm

/-- Witness for C6 at a concrete input. -/
theorem c6_witness :
    (list_entities [("b", "s.one"), ("a", "s.two"), ("a", "t.three")]
        (some (fun eid => eid.data.contains 's'))).filter (fun q => q.1 == "a")
      = (([("b", "s.one"), ("a", "s.two"), ("a", "t.three")] : List (String × String)).filter
          (fun p => (fun eid => eid.data.contains 's') p.2)).filter (fun q => q.1 == "a") :=
  (c6_lister [("b", "s.one"), ("a", "s.two"), ("a", "t.three")]
    (fun eid => eid.data.contains 's')).2.2 "a"

/-- Aligning the empty cell leaves it empty. -/
theorem alignString_empty (m : Nat) : alignString m "" = "" := by
  have h : hasDot "" = false := by decide
  simp [alignString, h]

/-- Reading back the cell `applyAt` rewrote. -/
theorem applyAt_getD_self (f : String → String) (hf : f "" = "") :
    ∀ (c : Nat) (row : List String), (applyAt f c row).getD c "" = f (row.getD c "")
  | c, [] => by simp [applyAt, hf]
  | 0, v :: vs => by simp [applyAt]
  | c + 1, v :: vs => by
    simp only [applyAt, List.getD_cons_succ]
    exact applyAt_getD_self f hf c vs

/-- Cells at other indices are untouched by `applyAt`. -/
theorem applyAt_getD_ne (f : String → String) :
    ∀ (c c' : Nat) (row : List String), c' ≠ c →
      (applyAt f c row).getD c' "" = row.getD c' ""
  | _, _, [], _ => by simp [applyAt]
  | 0, 0, v :: vs, h => absurd rfl h
  | 0, c' + 1, v :: vs, _ => by simp [applyAt]
  | c + 1, 0, v :: vs, _ => by simp [applyAt]
  | c + 1, c' + 1, v :: vs, h => by
    simp only [applyAt, List.getD_cons_succ]
    exact applyAt_getD_ne f c c' vs (fun hh => h (congrArg Nat.succ hh))

/-- A pass over column `c` does not change any other column. -/
theorem colGet_alignColumn_ne (t : List (List String)) (c c' : Nat) (h : c' ≠ c) :
    colGet (alignColumn t c) c' = colGet t c' := by
  unfold alignColumn
  dsimp only
  split
  · rfl
  · unfold colGet
    rw [List.map_map]
    apply List.map_congr_left
    intro row _
    exact applyAt_getD_ne _ c c' row h

/-- A pass over column `c` rewrites exactly that column: unchanged when no
cell has the marker, otherwise every cell goes through `alignString` at the
column's maximal prefix width. -/
theorem colGet_alignColumn_self (t : List (List String)) (c : Nat) :
    colGet (alignColumn t c) c =
      if ((colGet t c).filter hasDot).isEmpty then colGet t c
      else (colGet t c).map (alignString (colMaxLen (colGet t c))) := by
  unfold alignColumn
  dsimp only
  by_cases h : ((colGet t c).filter hasDot).isEmpty = true
  · rw [if_pos h, if_pos h]
  · rw [if_neg h, if_neg h]
    unfold colGet
    rw [List.map_map, List.map_map]
    apply List.map_congr_left
    intro row _
    exact applyAt_getD_self _ (alignString_empty _) c row

/-- Columns outside the processed index list are unchanged by the fold. -/
theorem colGet_foldl_not_mem (cs : List Nat) :
    ∀ (t : List (List String)) (c : Nat), c ∉ cs →
      colGet (cs.foldl alignColumn t) c = colGet t c := by
  induction cs with
  | nil => intro t c _; rfl
  | cons c' cs ih =>
    intro t c hc
    have h1 : c ≠ c' := fun h => hc (h ▸ List.mem_cons_self c' cs)
    have h2 : c ∉ cs := fun h => hc (List.mem_cons_of_mem c' h)
    rw [List.foldl_cons, ih (alignColumn t c') c h2, colGet_alignColumn_ne t c' c h1]

/-- Over a duplicate-free index list, the fold rewrites each processed
column from its original contents: the passes are independent. -/
theorem colGet_foldl_mem (cs : List Nat) :
    ∀ (t : List (List String)) (c : Nat), cs.Nodup → c ∈ cs →
      colGet (cs.foldl alignColumn t) c =
        if ((colGet t c).filter hasDot).isEmpty then colGet t c
        else (colGet t c).map (alignString (colMaxLen (colGet t c))) := by
  induction cs with
  | nil => intro t c _ hc; simp at hc
  | cons c' cs ih =>
    intro t c hnd hc
    have hnd1 : c' ∉ cs := (List.nodup_cons.mp hnd).1
    have hnd2 : cs.Nodup := (List.nodup_cons.mp hnd).2
    rw [List.foldl_cons]
    rcases List.mem_cons.mp hc with rfl | hmem
    · rw [colGet_foldl_not_mem cs (alignColumn t c) c hnd1]
      exact colGet_alignColumn_self t c
    · have hne : c ≠ c' := fun h => hnd1 (h ▸ hmem)
      rw [ih (alignColumn t c') c hnd2 hmem, colGet_alignColumn_ne t c' c hne]

/-- C8: in any (nonempty) table, for every column index within the first
row in which at least one cell contains a period, `align_strings` maps the
whole column through `alignString` at the maximal before-period prefix
width of that column — cells with a period get their prefix padded to that
width so the periods line up, and cells without a period are returned
unchanged. -/
theorem c8_alignment (row0 : List String) (rest : List (List String)) (c : Nat)
    (hc : c < row0.length)
    (hdot : ∃ s ∈ colGet (row0 :: rest) c, hasDot s = true) :
    colGet (align_strings (row0 :: rest)) c
      = (colGet (row0 :: rest) c).map
          (alignString (colMaxLen (colGet (row0 :: rest) c)))
    ∧ (∀ s, hasDot s = false →
        alignString (colMaxLen (colGet (row0 :: rest) c)) s = s)
    ∧ (∀ (m : Nat) (s : String), hasDot s = true →
        alignString m s = padLeft m (beforeDot s) ++ "." ++ afterDot s) := by
  have hne : ((colGet (row0 :: rest) c).filter hasDot).isEmpty = false := by
    rcases hdot with ⟨s, hs, hd⟩
    cases hfe : ((colGet (row0 :: rest) c).filter hasDot).isEmpty with
    | false => rfl
    | true =>
      exfalso
      rw [List.isEmpty_iff] at hfe
      exact absurd hd (by simpa using (List.filter_eq_nil_iff.mp hfe) s hs)
  have key := colGet_foldl_mem (List.range row0.length) (row0 :: rest) c
    (List.nodup_range row0.length) (List.mem_range.mpr hc)
  rw [if_neg (by simp [hne])] at key
  have halign : align_strings (row0 :: rest)
      = (List.range row0.length).foldl alignColumn (row0 :: rest) := rfl
  refine ⟨by rw [halign]; exact key, ?_, ?_⟩
  · intro s hs
    simp [alignString, hs]
  · intro m s hs
    simp [alignString, hs]

/-- Witness for C8 at the concrete column of the claim. -/
theorem c8_witness :
    (0 < (["a.bc"] : List String).length
      ∧ ∃ s ∈ colGet [["a.bc"], ["abc.d"], ["x"]] 0, hasDot s = true)
    ∧ colGet (align_strings [["a.bc"], ["abc.d"], ["x"]]) 0
        = (colGet [["a.bc"], ["abc.d"], ["x"]] 0).map
            (alignString (colMaxLen (colGet [["a.bc"], ["abc.d"], ["x"]] 0)))
    ∧ align_strings [["a.bc"], ["abc.d"], ["x"]] = [["  a.bc"], ["abc.d"], ["x"]] :=
  ⟨⟨by decide, ⟨"a.bc", by decide, by decide⟩⟩,
   (c8_alignment ["a.bc"] [["abc.d"], ["x"]] 0 (by decide)
      ⟨"a.bc", by decide, by decide⟩).1,
   by decide⟩

end EntityRenamer
